import Mathlib

/-!
Verification of the duckql filter/aggregation-to-SQL compiler and the pooled
query executor, as a shallow embedding of `duckql/execution/translator.py`,
`duckql/execution/executor.py`, `duckql/exceptions.py` and
`duckql/schema/aggregates.py`.
-/

namespace DuckQL

/-- JSON-ish values flowing through a GraphQL `where` filter: the leaf values
of `_build_field_condition` (`None`, scalars, and lists for `in`/`not_in`). -/
inductive JValue where
  | jnull
  | jint (n : Int)
  | jstr (s : String)
  | jbool (b : Bool)
  | jlist (xs : List JValue)

mutual

/-- Boolean equality on `JValue` (needed because deriving does not handle the
nested list). -/
def JValue.beq : JValue → JValue → Bool
  | .jnull, .jnull => true
  | .jint a, .jint b => a == b
  | .jstr a, .jstr b => a == b
  | .jbool a, .jbool b => a == b
  | .jlist xs, .jlist ys => JValue.beqList xs ys
  | _, _ => false

/-- Boolean equality on lists of `JValue`. -/
def JValue.beqList : List JValue → List JValue → Bool
  | [], [] => true
  | x :: xs, y :: ys => JValue.beq x y && JValue.beqList xs ys
  | _, _ => false

end

mutual

/-- `JValue.beq` is sound and complete for propositional equality. -/
theorem JValue.beq_iff : ∀ a b : JValue, JValue.beq a b = true ↔ a = b
  | .jnull, .jnull => by simp [JValue.beq]
  | .jnull, .jint _ | .jnull, .jstr _ | .jnull, .jbool _ | .jnull, .jlist _ =>
      by simp [JValue.beq]
  | .jint _, .jnull | .jint _, .jstr _ | .jint _, .jbool _ | .jint _, .jlist _ =>
      by simp [JValue.beq]
  | .jint a, .jint b => by simp [JValue.beq]
  | .jstr _, .jnull | .jstr _, .jint _ | .jstr _, .jbool _ | .jstr _, .jlist _ =>
      by simp [JValue.beq]
  | .jstr a, .jstr b => by simp [JValue.beq]
  | .jbool _, .jnull | .jbool _, .jint _ | .jbool _, .jstr _ | .jbool _, .jlist _ =>
      by simp [JValue.beq]
  | .jbool a, .jbool b => by simp [JValue.beq]
  | .jlist _, .jnull | .jlist _, .jint _ | .jlist _, .jstr _ | .jlist _, .jbool _ =>
      by simp [JValue.beq]
  | .jlist xs, .jlist ys => by
      simp only [JValue.beq, JValue.jlist.injEq]
      exact JValue.beqList_iff xs ys

/-- `JValue.beqList` is sound and complete for propositional equality. -/
theorem JValue.beqList_iff : ∀ xs ys : List JValue,
    JValue.beqList xs ys = true ↔ xs = ys
  | [], [] => by simp [JValue.beqList]
  | [], _ :: _ => by simp [JValue.beqList]
  | _ :: _, [] => by simp [JValue.beqList]
  | x :: xs, y :: ys => by
      simp only [JValue.beqList, Bool.and_eq_true, List.cons.injEq]
      exact and_congr (JValue.beq_iff x y) (JValue.beqList_iff xs ys)

end

instance : DecidableEq JValue := fun a b =>
  decidable_of_iff (JValue.beq a b = true) (JValue.beq_iff a b)

/-- Splitting a character list at a separator character, mirroring Python
`str.split(sep)` for a one-character separator (always at least one field;
empty fields kept). -/
def splitCharsOn (sep : Char) : List Char → List (List Char)
  | [] => [[]]
  | a :: rest =>
    let r := splitCharsOn sep rest
    if a = sep then [] :: r
    else
      match r with
      | [] => [[a]]
      | h :: t => (a :: h) :: t

/-- `key.split("_")` from `_build_field_condition` (translator.py line 148). -/
def splitKey (key : String) : List String :=
  (splitCharsOn (Char.ofNat 95) key.data).map List.asString

/-- `"_".join(parts)`, mirroring Python `str.join` with separator `"_"`. -/
def joinU : List String → String
  | [] => ""
  | [x] => x
  | x :: xs => x ++ "_" ++ joinU xs

/-- Joining a list of strings with an arbitrary separator (Python `sep.join`). -/
def joinSep (sep : String) : List String → String
  | [] => ""
  | [x] => x
  | x :: xs => x ++ sep ++ joinSep sep xs

/-- The single-token operator suffixes of translator.py line 158. -/
def singleOps : List String :=
  ["eq", "ne", "gt", "gte", "lt", "lte", "like", "ilike", "in"]

/-- Field/operator parsing of a leaf key, embedded from
`_build_field_condition` (translator.py lines 147-166): split the key on
underscores, try the trailing two-token sequence `not_in`, then a trailing
single-token operator, else the whole key with operator `eq`. -/
def parseKey (key : String) : String × String :=
  let parts := splitKey key
  if parts.length > 1 then
    if joinU (parts.drop (parts.length - 2)) = "not_in" then
      (joinU (parts.take (parts.length - 2)), "not_in")
    else
      let lastPart := parts.getLastD ""
      if singleOps.contains lastPart then
        (joinU parts.dropLast, lastPart)
      else
        (key, "eq")
  else
    (key, "eq")

/-- Compilation state threaded through one translation call: the
`self.param_counter` of `GraphQLToSQLTranslator` and the (insertion-ordered)
`context.params` dict. -/
structure TransState where
  counter : Nat
  params : List (String × JValue)
  deriving DecidableEq

/-- `f"p{n}"`: the parameter name for counter value `n`. -/
def pname (n : Nat) : String := "p" ++ Nat.repr n

/-- The per-element parameter allocation inside the `in`/`not_in` branches of
`_build_field_condition` (translator.py lines 193-198 and 204-209): one fresh
parameter per list element, returning the placeholder strings in order. -/
def allocElems : List JValue → TransState → TransState × List String
  | [], st => (st, [])
  | x :: xs, st =>
    let p := pname st.counter
    let st1 : TransState := ⟨st.counter + 1, st.params ++ [(p, x)]⟩
    let (st2, rest) := allocElems xs st1
    (st2, ("$" ++ p) :: rest)

/-- `_build_field_condition` (translator.py lines 142-217): skip `None`
values; otherwise parse the key, allocate one parameter for the value, and
emit one SQL condition (with extra per-element parameters for list-valued
`in`/`not_in`). Returns the new state and the produced condition strings
(empty for a skipped null leaf). -/
def buildFieldCondition (key : String) (v : JValue) (st : TransState) :
    TransState × List String :=
  match v with
  | .jnull => (st, [])
  | _ =>
    let fo := parseKey key
    let fieldName := fo.1
    let op := fo.2
    let paramName := pname st.counter
    let st1 : TransState := ⟨st.counter + 1, st.params ++ [(paramName, v)]⟩
    let quotedField := "\"" ++ fieldName ++ "\""
    if op = "eq" ∨ op = "" then
      (st1, [quotedField ++ " = $" ++ paramName])
    else if op = "ne" then
      (st1, [quotedField ++ " != $" ++ paramName])
    else if op = "gt" then
      (st1, [quotedField ++ " > $" ++ paramName])
    else if op = "gte" then
      (st1, [quotedField ++ " >= $" ++ paramName])
    else if op = "lt" then
      (st1, [quotedField ++ " < $" ++ paramName])
    else if op = "lte" then
      (st1, [quotedField ++ " <= $" ++ paramName])
    else if op = "like" then
      (st1, [quotedField ++ " LIKE $" ++ paramName])
    else if op = "ilike" then
      (st1, [quotedField ++ " ILIKE $" ++ paramName])
    else if op = "in" then
      match v with
      | .jlist xs =>
        let r := allocElems xs st1
        (r.1, [quotedField ++ " IN (" ++ joinSep ", " r.2 ++ ")"])
      | _ => (st1, [quotedField ++ " = $" ++ paramName])
    else if op = "not_in" then
      match v with
      | .jlist xs =>
        let r := allocElems xs st1
        (r.1, [quotedField ++ " NOT IN (" ++ joinSep ", " r.2 ++ ")"])
      | _ => (st1, [quotedField ++ " != $" ++ paramName])
    else
      (st1, [quotedField ++ " = $" ++ paramName])

mutual

/-- A GraphQL `where` argument: a dict whose entries are processed in
insertion order by `_build_where_conditions` (translator.py lines 88-140).
An entry is either a field leaf or one of the combinator keys `_and`, `_or`
(value: list of sub-dicts) and `_not` (value: one sub-dict). -/
inductive WhereDict where
  | mk (items : List WhereItem)

/-- One entry of a `where` dict. -/
inductive WhereItem where
  | field (key : String) (v : JValue)
  | andW (subs : List WhereDict)
  | orW (subs : List WhereDict)
  | notW (sub : WhereDict)

end

mutual

/-- `_build_where_conditions` over one dict: process the entries in order,
threading the shared parameter state, and collect the conditions appended to
`context.where_conditions`. -/
def buildDict : WhereDict → TransState → TransState × List String
  | .mk items, st => buildItems items st

/-- Sequential processing of the entries of a dict (the `for key, value in
where.items()` loop of `_build_where_conditions`). -/
def buildItems : List WhereItem → TransState → TransState × List String
  | [], st => (st, [])
  | it :: rest, st =>
    let r1 := buildItem it st
    let r2 := buildItems rest r1.1
    (r2.1, r1.2 ++ r2.2)

/-- One entry of `_build_where_conditions`: a field leaf goes to
`_build_field_condition`; `_and`/`_or` compile each sub-dict with the shared
state, parenthesize each nonempty sub-result (joined with AND), and join the
group with AND/OR inside one outer parenthesis; `_not` wraps its sub-result
in `NOT (...)`. Empty results are dropped. -/
def buildItem : WhereItem → TransState → TransState × List String
  | .field k v, st => buildFieldCondition k v st
  | .andW subs, st =>
    let r := buildGroup subs st
    let conds := (r.2.filter (fun g => !g.isEmpty)).map
      (fun g => "(" ++ joinSep " AND " g ++ ")")
    (r.1, if conds.isEmpty then [] else ["(" ++ joinSep " AND " conds ++ ")"])
  | .orW subs, st =>
    let r := buildGroup subs st
    let conds := (r.2.filter (fun g => !g.isEmpty)).map
      (fun g => "(" ++ joinSep " AND " g ++ ")")
    (r.1, if conds.isEmpty then [] else ["(" ++ joinSep " OR " conds ++ ")"])
  | .notW sub, st =>
    let r := buildDict sub st
    (r.1, if r.2.isEmpty then [] else ["NOT (" ++ joinSep " AND " r.2 ++ ")"])

/-- Compile a list of sub-dicts in order with the shared state, keeping each
sub-dict's conditions as one group (the `for sub_where in value` loops). -/
def buildGroup : List WhereDict → TransState → TransState × List (List String)
  | [], st => (st, [])
  | d :: ds, st =>
    let r1 := buildDict d st
    let r2 := buildGroup ds r1.1
    (r2.1, r1.2 :: r2.2)

end

/-- `GraphQLToSQLTranslator.translate_where` (translator.py lines 68-86):
fresh state (`param_counter = 0`, empty params), build the conditions, join
them with AND (empty string when there are none), and return the SQL
fragment with the parameter map. -/
def translateWhere (w : WhereDict) : String × List (String × JValue) :=
  let r := buildDict w ⟨0, []⟩
  (if r.2.isEmpty then "" else joinSep " AND " r.2, r.1.params)

/-- Extra parameters a leaf allocates beyond its first one: one per list
element when the parsed operator is `in` or `not_in` and the value is a
list. -/
def leafExtra (key : String) (v : JValue) : Nat :=
  match v with
  | .jlist xs =>
    if (parseKey key).2 = "in" ∨ (parseKey key).2 = "not_in" then xs.length else 0
  | _ => 0

/-- Total number of parameter-map entries one leaf contributes: zero for a
null value, otherwise one (the unconditional allocation at translator.py
lines 168-171) plus the per-element extras. -/
def leafWeight (key : String) (v : JValue) : Nat :=
  match v with
  | .jnull => 0
  | _ => 1 + leafExtra key v

mutual

/-- Sum of `leafWeight` over all leaves of a dict. -/
def weightD : WhereDict → Nat
  | .mk items => weightItems items

/-- Sum of `leafWeight` over a list of entries. -/
def weightItems : List WhereItem → Nat
  | [] => 0
  | it :: rest => weightItem it + weightItems rest

/-- Sum of `leafWeight` over one entry. -/
def weightItem : WhereItem → Nat
  | .field k v => leafWeight k v
  | .andW subs => weightGroup subs
  | .orW subs => weightGroup subs
  | .notW sub => weightD sub

/-- Sum of `leafWeight` over a list of sub-dicts. -/
def weightGroup : List WhereDict → Nat
  | [] => 0
  | d :: ds => weightD d + weightGroup ds

end

mutual

/-- Number of leaves of a dict. -/
def leafCountD : WhereDict → Nat
  | .mk items => leafCountItems items

/-- Number of leaves in a list of entries. -/
def leafCountItems : List WhereItem → Nat
  | [] => 0
  | it :: rest => leafCountItem it + leafCountItems rest

/-- Number of leaves under one entry. -/
def leafCountItem : WhereItem → Nat
  | .field _ _ => 1
  | .andW subs => leafCountGroup subs
  | .orW subs => leafCountGroup subs
  | .notW sub => leafCountD sub

/-- Number of leaves in a list of sub-dicts. -/
def leafCountGroup : List WhereDict → Nat
  | [] => 0
  | d :: ds => leafCountD d + leafCountGroup ds

end

mutual

/-- Sum of `leafExtra` over all leaves of a dict. -/
def extraD : WhereDict → Nat
  | .mk items => extraItems items

/-- Sum of `leafExtra` over a list of entries. -/
def extraItems : List WhereItem → Nat
  | [] => 0
  | it :: rest => extraItem it + extraItems rest

/-- Sum of `leafExtra` over one entry. -/
def extraItem : WhereItem → Nat
  | .field k v => leafExtra k v
  | .andW subs => extraGroup subs
  | .orW subs => extraGroup subs
  | .notW sub => extraD sub

/-- Sum of `leafExtra` over a list of sub-dicts. -/
def extraGroup : List WhereDict → Nat
  | [] => 0
  | d :: ds => extraD d + extraGroup ds

end

mutual

/-- Every leaf value of the dict is non-null. -/
def allNonNullD : WhereDict → Bool
  | .mk items => allNonNullItems items

/-- Every leaf value in the entry list is non-null. -/
def allNonNullItems : List WhereItem → Bool
  | [] => true
  | it :: rest => allNonNullItem it && allNonNullItems rest

/-- Every leaf value under one entry is non-null. -/
def allNonNullItem : WhereItem → Bool
  | .field _ v => !(v matches .jnull)
  | .andW subs => allNonNullGroup subs
  | .orW subs => allNonNullGroup subs
  | .notW sub => allNonNullD sub

/-- Every leaf value in a list of sub-dicts is non-null. -/
def allNonNullGroup : List WhereDict → Bool
  | [] => true
  | d :: ds => allNonNullD d && allNonNullGroup ds

end

/-- `allocElems` appends exactly one parameter-map entry per list element. -/
theorem allocElems_params_len (xs : List JValue) (st : TransState) :
    ((allocElems xs st).1).params.length = st.params.length + xs.length := by
  induction xs generalizing st with
  | nil => simp [allocElems]
  | cons x xs ih => simp [allocElems, ih]; omega

/-- The parsed operator always comes from the closed set
`eq, not_in` plus the single-token suffixes. -/
theorem parseKey_snd_cases (k : String) :
    (parseKey k).2 = "eq" ∨ (parseKey k).2 = "not_in" ∨ (parseKey k).2 = "ne" ∨
    (parseKey k).2 = "gt" ∨ (parseKey k).2 = "gte" ∨ (parseKey k).2 = "lt" ∨
    (parseKey k).2 = "lte" ∨ (parseKey k).2 = "like" ∨ (parseKey k).2 = "ilike" ∨
    (parseKey k).2 = "in" := by
  rcases hpk : parseKey k with ⟨f, op⟩
  unfold parseKey at hpk
  simp only [] at hpk
  split at hpk
  · split at hpk
    · cases hpk; simp
    · split at hpk
      · rename_i h
        cases hpk
        simp only [singleOps, List.contains_cons, List.contains_nil,
          Bool.or_eq_true, beq_iff_eq] at h
        tauto
      · cases hpk; simp
  · cases hpk; simp

/-- `_build_field_condition` grows the parameter map by exactly
`leafWeight`. -/
theorem buildFieldCondition_params_len (k : String) (v : JValue) (st : TransState) :
    ((buildFieldCondition k v st).1).params.length = st.params.length + leafWeight k v := by
  rcases parseKey_snd_cases k with hop|hop|hop|hop|hop|hop|hop|hop|hop|hop <;>
    cases v <;>
    simp [buildFieldCondition, hop, leafWeight, leafExtra, allocElems_params_len,
      List.length_append] <;>
    omega

mutual

/-- Compiling a dict grows the parameter map by its total leaf weight. -/
theorem buildDict_params_len : ∀ (w : WhereDict) (st : TransState),
    ((buildDict w st).1).params.length = st.params.length + weightD w
  | .mk items, st => by
    simp [buildDict, weightD, buildItems_params_len items st]

/-- Compiling an entry list grows the parameter map by its total leaf
weight. -/
theorem buildItems_params_len : ∀ (its : List WhereItem) (st : TransState),
    ((buildItems its st).1).params.length = st.params.length + weightItems its
  | [], st => by simp [buildItems, weightItems]
  | it :: rest, st => by
    simp only [buildItems, weightItems]
    rw [buildItems_params_len rest ((buildItem it st).1),
      buildItem_params_len it st]
    omega

/-- Compiling one entry grows the parameter map by its leaf weight. -/
theorem buildItem_params_len : ∀ (it : WhereItem) (st : TransState),
    ((buildItem it st).1).params.length = st.params.length + weightItem it
  | .field k v, st => by
    simp [buildItem, weightItem, buildFieldCondition_params_len]
  | .andW subs, st => by
    simp [buildItem, weightItem, buildGroup_params_len subs st]
  | .orW subs, st => by
    simp [buildItem, weightItem, buildGroup_params_len subs st]
  | .notW sub, st => by
    simp [buildItem, weightItem, buildDict_params_len sub st]

/-- Compiling a list of sub-dicts grows the parameter map by its total leaf
weight. -/
theorem buildGroup_params_len : ∀ (ds : List WhereDict) (st : TransState),
    ((buildGroup ds st).1).params.length = st.params.length + weightGroup ds
  | [], st => by simp [buildGroup, weightGroup]
  | d :: ds, st => by
    simp only [buildGroup, weightGroup]
    rw [buildGroup_params_len ds ((buildDict d st).1), buildDict_params_len d st]
    omega

end

/-- The compiled parameter map of `translate_where` has exactly the total
leaf weight many entries. -/
theorem translateWhere_params_len (w : WhereDict) :
    (translateWhere w).2.length = weightD w := by
  simpa using buildDict_params_len w ⟨0, []⟩

mutual

/-- With all leaves non-null, weight decomposes into leaf count plus list
extras, for dicts. -/
theorem weightD_decomp : ∀ w : WhereDict, allNonNullD w = true →
    weightD w = leafCountD w + extraD w
  | .mk items, h => by
    simp only [allNonNullD] at h
    simp [weightD, leafCountD, extraD, weightItems_decomp items h]

/-- With all leaves non-null, weight decomposes into leaf count plus list
extras, for entry lists. -/
theorem weightItems_decomp : ∀ its : List WhereItem, allNonNullItems its = true →
    weightItems its = leafCountItems its + extraItems its
  | [], _ => by simp [weightItems, leafCountItems, extraItems]
  | it :: rest, h => by
    simp only [allNonNullItems, Bool.and_eq_true] at h
    simp only [weightItems, leafCountItems, extraItems,
      weightItem_decomp it h.1, weightItems_decomp rest h.2]
    omega

/-- With all leaves non-null, weight decomposes into leaf count plus list
extras, for one entry. -/
theorem weightItem_decomp : ∀ it : WhereItem, allNonNullItem it = true →
    weightItem it = leafCountItem it + extraItem it
  | .field k v, h => by
    cases v <;>
      simp_all [weightItem, leafCountItem, extraItem, leafWeight, allNonNullItem]
  | .andW subs, h => by
    simp only [allNonNullItem] at h
    simp [weightItem, leafCountItem, extraItem, weightGroup_decomp subs h]
  | .orW subs, h => by
    simp only [allNonNullItem] at h
    simp [weightItem, leafCountItem, extraItem, weightGroup_decomp subs h]
  | .notW sub, h => by
    simp only [allNonNullItem] at h
    simp [weightItem, leafCountItem, extraItem, weightD_decomp sub h]

/-- With all leaves non-null, weight decomposes into leaf count plus list
extras, for sub-dict lists. -/
theorem weightGroup_decomp : ∀ ds : List WhereDict, allNonNullGroup ds = true →
    weightGroup ds = leafCountGroup ds + extraGroup ds
  | [], _ => by simp [weightGroup, leafCountGroup, extraGroup]
  | d :: ds, h => by
    simp only [allNonNullGroup, Bool.and_eq_true] at h
    simp only [weightGroup, leafCountGroup, extraGroup,
      weightD_decomp d h.1, weightGroup_decomp ds h.2]
    omega

end

mutual

/-- Removing every null-valued leaf from a dict. -/
def dropNullsD : WhereDict → WhereDict
  | .mk items => .mk (dropNullsItems items)

/-- Removing every null-valued leaf from an entry list. -/
def dropNullsItems : List WhereItem → List WhereItem
  | [] => []
  | .field k v :: rest =>
    if v = .jnull then dropNullsItems rest
    else .field k v :: dropNullsItems rest
  | .andW subs :: rest => .andW (dropNullsGroup subs) :: dropNullsItems rest
  | .orW subs :: rest => .orW (dropNullsGroup subs) :: dropNullsItems rest
  | .notW sub :: rest => .notW (dropNullsD sub) :: dropNullsItems rest

/-- Removing every null-valued leaf from a list of sub-dicts. -/
def dropNullsGroup : List WhereDict → List WhereDict
  | [] => []
  | d :: ds => dropNullsD d :: dropNullsGroup ds

end

mutual

/-- Null-valued leaves contribute nothing: compilation of a dict is unchanged
by removing them. -/
theorem buildDict_dropNulls : ∀ (w : WhereDict) (st : TransState),
    buildDict (dropNullsD w) st = buildDict w st
  | .mk items, st => by
    simp [dropNullsD, buildDict, buildItems_dropNulls items st]

/-- Null-valued leaves contribute nothing, entry-list version. -/
theorem buildItems_dropNulls : ∀ (its : List WhereItem) (st : TransState),
    buildItems (dropNullsItems its) st = buildItems its st
  | [], _ => rfl
  | .field k v :: rest, st => by
    by_cases hv : v = .jnull
    · subst hv
      rw [dropNullsItems]
      simp [buildItems_dropNulls rest st, buildItems, buildItem,
        buildFieldCondition]
    · rw [dropNullsItems]
      simp only [hv, if_false, buildItems, buildItem]
      rw [buildItems_dropNulls rest ((buildFieldCondition k v st).1)]
  | .andW subs :: rest, st => by
    rw [dropNullsItems]
    simp only [buildItems, buildItem]
    rw [buildGroup_dropNulls subs st,
      buildItems_dropNulls rest ((buildGroup subs st).1)]
  | .orW subs :: rest, st => by
    rw [dropNullsItems]
    simp only [buildItems, buildItem]
    rw [buildGroup_dropNulls subs st,
      buildItems_dropNulls rest ((buildGroup subs st).1)]
  | .notW sub :: rest, st => by
    rw [dropNullsItems]
    simp only [buildItems, buildItem]
    rw [buildDict_dropNulls sub st,
      buildItems_dropNulls rest ((buildDict sub st).1)]

/-- Null-valued leaves contribute nothing, sub-dict-list version. -/
theorem buildGroup_dropNulls : ∀ (ds : List WhereDict) (st : TransState),
    buildGroup (dropNullsGroup ds) st = buildGroup ds st
  | [], _ => rfl
  | d :: ds, st => by
    rw [dropNullsGroup]
    simp only [buildGroup]
    rw [buildDict_dropNulls d st, buildGroup_dropNulls ds ((buildDict d st).1)]

end

/-- `translate_where` is unchanged by removing null-valued leaves. -/
theorem translateWhere_dropNulls (w : WhereDict) :
    translateWhere (dropNullsD w) = translateWhere w := by
  simp [translateWhere, buildDict_dropNulls w ⟨0, []⟩]

/-- C5: leaf-key parsing checks the two-token trailing sequence `not_in`
before any single-token suffix (longest match wins, first conjunct: the
`not_in` result holds even though the trailing token `in` is itself in the
single-token set); a single trailing token from
`eq, ne, gt, gte, lt, lte, like, ilike, in` is split off otherwise (second
conjunct); when no known suffix matches — including single-token keys — the
entire key is the field name and the operator defaults to `eq` (third
conjunct); plus concrete instances of each case. -/
theorem C5_key_parsing :
    (∀ k : String, 2 ≤ (splitKey k).length →
        joinU ((splitKey k).drop ((splitKey k).length - 2)) = "not_in" →
        parseKey k = (joinU ((splitKey k).take ((splitKey k).length - 2)), "not_in")) ∧
    (∀ k : String, 2 ≤ (splitKey k).length →
        joinU ((splitKey k).drop ((splitKey k).length - 2)) ≠ "not_in" →
        singleOps.contains ((splitKey k).getLastD "") = true →
        parseKey k = (joinU (splitKey k).dropLast, (splitKey k).getLastD "")) ∧
    (∀ k : String,
        ((splitKey k).length ≤ 1 ∨
          (joinU ((splitKey k).drop ((splitKey k).length - 2)) ≠ "not_in" ∧
            singleOps.contains ((splitKey k).getLastD "") = false)) →
        parseKey k = (k, "eq")) ∧
    parseKey "tags_not_in" = ("tags", "not_in") ∧
    parseKey "age_gte" = ("age", "gte") ∧
    parseKey "created_at" = ("created_at", "eq") := by
  refine ⟨?_, ?_, ?_, by decide, by decide, by decide⟩
  · intro k h1 h2
    simp only [parseKey]
    rw [if_pos (by omega), if_pos h2]
  · intro k h1 h2 h3
    simp only [parseKey]
    rw [if_pos (by omega), if_neg h2, if_pos h3]
  · intro k h
    rcases h with h | ⟨h2, h3⟩
    · simp only [parseKey]
      rw [if_neg (by omega)]
    · simp only [parseKey]
      by_cases hl : (splitKey k).length > 1
      · rw [if_pos hl, if_neg h2, if_neg (by rw [h3]; exact Bool.false_ne_true)]
      · rw [if_neg hl]

/-- Witness for C5: the three universal conjuncts applied at concrete keys,
with the hypotheses discharged by computation. -/
theorem C5_key_parsing_witness :
    parseKey "tags_not_in" =
      (joinU ((splitKey "tags_not_in").take ((splitKey "tags_not_in").length - 2)),
        "not_in") ∧
    parseKey "age_gte" =
      (joinU (splitKey "age_gte").dropLast, (splitKey "age_gte").getLastD "") ∧
    parseKey "created_at" = ("created_at", "eq") :=
  ⟨C5_key_parsing.1 "tags_not_in" (by decide) (by decide),
    C5_key_parsing.2.1 "age_gte" (by decide) (by decide) (by decide),
    C5_key_parsing.2.2.1 "created_at" (Or.inr ⟨by decide, by decide⟩)⟩

/-- C1, counterexample to the claim as stated: the filter with the single
leaf `a_in: [1, 2]` has one leaf, so the claim predicts
`1 + (2 - 1) = 2` parameter-map entries, but compilation produces 3 — the
unconditional allocation at translator.py lines 168-171 stores the whole
list under `p0` before the per-element parameters `p1`, `p2` are added. -/
theorem C1_count_counterexample :
    (translateWhere (.mk [.field "a_in" (.jlist [.jint 1, .jint 2])])).2.length = 3 ∧
    leafCountD (.mk [.field "a_in" (.jlist [.jint 1, .jint 2])]) = 1 ∧
    (translateWhere (.mk [.field "a_in" (.jlist [.jint 1, .jint 2])])).2 ≠
      [("p1", .jint 1), ("p2", .jint 2)] ∧
    (translateWhere (.mk [.field "a_in" (.jlist [.jint 1, .jint 2])])).2.length ≠ 2 := by
  refine ⟨by decide, by decide, by decide, by decide⟩

/-- C1 as amended: for a filter tree whose leaves are all non-null, the
parameter-map entry count equals the number of leaves plus `elementCount`
(not `elementCount - 1`) additional entries for each `in`/`not_in` leaf
whose value is a list of `elementCount` elements, because such a leaf
allocates one parameter for the list itself and then one per element. -/
theorem C1_param_count_amended (w : WhereDict) (h : allNonNullD w = true) :
    (translateWhere w).2.length = leafCountD w + extraD w := by
  rw [translateWhere_params_len, weightD_decomp w h]

/-- Witness for C1: a concrete filter with three non-null leaves, one of
them an `in` leaf with a 3-element list: 3 leaves + 3 extras = 6 entries. -/
theorem C1_param_count_amended_witness :
    allNonNullD (.mk [.field "age_gte" (.jint 18), .field "name" (.jstr "x"),
        .field "status_in" (.jlist [.jstr "a", .jstr "b", .jstr "c"])]) = true ∧
    (translateWhere (.mk [.field "age_gte" (.jint 18), .field "name" (.jstr "x"),
        .field "status_in" (.jlist [.jstr "a", .jstr "b", .jstr "c"])])).2.length =
      leafCountD (.mk [.field "age_gte" (.jint 18), .field "name" (.jstr "x"),
        .field "status_in" (.jlist [.jstr "a", .jstr "b", .jstr "c"])]) +
      extraD (.mk [.field "age_gte" (.jint 18), .field "name" (.jstr "x"),
        .field "status_in" (.jlist [.jstr "a", .jstr "b", .jstr "c"])]) :=
  ⟨by decide, C1_param_count_amended _ (by decide)⟩

/-- C8: the filter `a: 1, b: null` compiles to exactly the same SQL
expression and parameter map as `a: 1`, and in general `translate_where` is
invariant under removing all null-valued leaves — they are dropped silently
and never compiled (in particular never to `IS NULL`). -/
theorem C8_null_leaves_dropped :
    translateWhere (.mk [.field "a" (.jint 1), .field "b" .jnull]) =
      translateWhere (.mk [.field "a" (.jint 1)]) ∧
    ∀ w : WhereDict, translateWhere (dropNullsD w) = translateWhere w :=
  ⟨by decide, translateWhere_dropNulls⟩

/-- Replacement of every non-overlapping occurrence of `pat` (scanning left
to right, not rescanning replaced text), mirroring Python `str.replace` for
a non-empty pattern. The `fuel` argument (always called with the length of
the scanned list, which bounds the number of recursion steps) only makes the
recursion structural. -/
def replaceAux (pat rep : List Char) : Nat → List Char → List Char
  | 0, s => s
  | _ + 1, [] => []
  | fuel + 1, c :: rest =>
    if pat.isPrefixOf (c :: rest) then
      rep ++ replaceAux pat rep fuel ((c :: rest).drop pat.length)
    else
      c :: replaceAux pat rep fuel rest

/-- Python `s.replace(pat, rep)` for non-empty `pat`. -/
def pyReplace (s pat rep : String) : String :=
  ⟨replaceAux pat.data rep.data s.data.length s.data⟩

/-- The placeholder rewriting of `QueryExecutor._execute_sync` (executor.py
lines 487-494) for a parameter map with keys `p0 .. p(n-1)`: iterate `i`
from `0` to `n-1` and textually replace every occurrence of `$p<i>` with
`$<i+1>`. -/
def substituteParams (sql : String) (n : Nat) : String :=
  (List.range n).foldl
    (fun s i => pyReplace s ("$p" ++ Nat.repr i) ("$" ++ Nat.repr (i + 1))) sql

/-- The accompanying value list: the parameter values in index order
(executor.py lines 489-493). -/
def paramValues (params : List (String × JValue)) (n : Nat) : List JValue :=
  (List.range n).filterMap (fun i => params.lookup (pname i))

/-- C2, evaluation at the failing input: with 11 parameters the loop
iteration `i = 1` replaces the substring `$p1` inside the token `$p10`,
turning it into `$20`; the engine-native form the claim requires (`$11`)
is never produced. With at most 10 parameters no placeholder token is a
prefix of another, which is why the slip only shows from `n = 11` on. -/
theorem C2_substitution_failing_input :
    substituteParams "\"a\" = $p1 AND \"b\" = $p10" 11 =
      "\"a\" = $2 AND \"b\" = $20" ∧
    substituteParams "\"a\" = $p1 AND \"b\" = $p10" 11 ≠
      "\"a\" = $2 AND \"b\" = $11" ∧
    substituteParams "\"a\" = $p1 AND \"b\" = $p10" 10 =
      "\"a\" = $2 AND \"b\" = $20" := by
  refine ⟨by decide, by decide, by decide⟩

/-- The retry loop of `with_retry` (executor.py lines 58-88), starting at a
given attempt index: call the operation; on success return; on a
non-retryable error re-raise at once; on a retryable error retry while
`attempt < maxRetries`, else raise the last error. The second component
counts how many times the operation was attempted. -/
def withRetryFrom {E A : Type} (retryable : E → Bool) (op : Nat → Except E A)
    (maxRetries : Nat) (attempt : Nat) : Except E A × Nat :=
  match op attempt with
  | .ok a => (.ok a, 1)
  | .error e =>
    if retryable e then
      if _h : attempt < maxRetries then
        let r := withRetryFrom retryable op maxRetries (attempt + 1)
        (r.1, r.2 + 1)
      else (.error e, 1)
    else (.error e, 1)
termination_by maxRetries - attempt

/-- `with_retry(max_retries)` applied to an operation, also counting the
attempts made. -/
def withRetryCount {E A : Type} (maxRetries : Nat) (retryable : E → Bool)
    (op : Nat → Except E A) : Except E A × Nat :=
  withRetryFrom retryable op maxRetries 0

/-- C3: with `maxRetries = 2`, an operation that always fails with a
retryable error is attempted exactly 3 times and the last error is raised;
an operation failing with a non-retryable error is attempted exactly once
and that error propagates. -/
theorem C3_retry_attempts {E A : Type} (retryable : E → Bool)
    (op₁ op₂ : Nat → Except E A) (errs : Nat → E) (e : E) :
    ((∀ n, n ≤ 2 → op₁ n = .error (errs n) ∧ retryable (errs n) = true) →
      withRetryCount 2 retryable op₁ = (.error (errs 2), 3)) ∧
    ((op₂ 0 = .error e ∧ retryable e = false) →
      withRetryCount 2 retryable op₂ = (.error e, 1)) := by
  constructor
  · intro h
    have h0 := h 0 (by omega)
    have h1 := h 1 (by omega)
    have h2 := h 2 (by omega)
    simp [withRetryCount, withRetryFrom, h0.1, h0.2, h1.1, h1.2, h2.1, h2.2]
  · intro h
    simp [withRetryCount, withRetryFrom, h.1, h.2]

/-- Witness for C3 at concrete operations over `Except Nat Unit`. -/
theorem C3_retry_attempts_witness :
    withRetryCount 2 (fun _ => true) (fun _ => (.error 0 : Except Nat Unit)) =
      (.error 0, 3) ∧
    withRetryCount 2 (fun _ => false) (fun _ => (.error 0 : Except Nat Unit)) =
      (.error 0, 1) :=
  ⟨(C3_retry_attempts (fun _ => true) (fun _ => .error 0) (fun _ => .error 0)
      (fun _ => 0) 0).1 (fun _ _ => ⟨rfl, rfl⟩),
    (C3_retry_attempts (fun _ => false) (fun _ => .error 0) (fun _ => .error 0)
      (fun _ => 0) 0).2 ⟨rfl, rfl⟩⟩

/-- A raw engine-level error: its Python type name and message, the inputs
`enhance_duckdb_error` inspects. -/
structure RawError where
  pyType : String
  message : String
  deriving DecidableEq

/-- State of `ConnectionPool` (executor.py lines 130-179): the FIFO queue of
available connections (front = next to be handed out), the
`_created_connections` counter, the capacity, and the connections closed by
`return_connection` on a full pool (to make that effect observable). -/
structure PoolState where
  queue : List Nat
  created : Nat
  maxConnections : Nat
  closed : List Nat
  deriving DecidableEq

/-- `ConnectionPool._create_connection`: while under capacity, open a fresh
connection (modelled by its creation index) and enqueue it. -/
def createConnection (s : PoolState) : PoolState :=
  if s.created < s.maxConnections then
    { s with queue := s.queue ++ [s.created], created := s.created + 1 }
  else s

/-- The `for _ in range(max_connections): self._create_connection()` loop of
`ConnectionPool.__init__`. -/
def preCreate (s : PoolState) : Nat → PoolState
  | 0 => s
  | k + 1 => preCreate (createConnection s) k

/-- `ConnectionPool(database_path, max_connections)`: empty pool then
`max_connections` creation steps. -/
def initPool (maxConnections : Nat) : PoolState :=
  preCreate ⟨[], 0, maxConnections, []⟩ maxConnections

/-- `ConnectionPool.get_connection` (executor.py lines 157-162): a blocking
dequeue with a 10 second bound; once the bounded wait elapses on an empty
queue, `queue.Empty` is turned into
`RuntimeError("Unable to get database connection from pool")` instead of
blocking for ever. The model returns that error exactly when the queue is
empty. -/
def getConnection (s : PoolState) : Except RawError (Nat × PoolState) :=
  match s.queue with
  | [] => .error ⟨"RuntimeError", "Unable to get database connection from pool"⟩
  | c :: rest => .ok (c, { s with queue := rest })

/-- `ConnectionPool.return_connection` (executor.py lines 164-170): a
non-blocking `put`; `queue.Full` is raised exactly when the queue is
bounded (Python treats `maxsize <= 0` as an unbounded queue) and already
holds at least `max_connections` entries, in which case it is caught and
the connection is closed instead; otherwise the connection is enqueued. -/
def returnConnection (c : Nat) (s : PoolState) : PoolState :=
  if 0 < s.maxConnections ∧ s.maxConnections ≤ s.queue.length then
    { s with closed := s.closed ++ [c] }
  else { s with queue := s.queue ++ [c] }

/-- A client-visible pool operation. -/
inductive PoolOp where
  | get
  | ret (c : Nat)
  deriving DecidableEq

/-- Apply one operation to the pool state (a failed `get` leaves the state
unchanged). -/
def applyPoolOp (s : PoolState) (o : PoolOp) : PoolState :=
  match o with
  | .get =>
    match getConnection s with
    | .ok (_, s1) => s1
    | .error _ => s
  | .ret c => returnConnection c s

/-- Run a sequence of pool operations. -/
def runPoolOps (s : PoolState) (ops : List PoolOp) : PoolState :=
  ops.foldl applyPoolOp s

/-- The pre-creation loop creates one connection per step while under
capacity. -/
theorem preCreate_spec : ∀ (k : Nat) (s : PoolState),
    s.created + k ≤ s.maxConnections → s.queue.length = s.created →
    (preCreate s k).created = s.created + k ∧
    (preCreate s k).queue.length = s.created + k ∧
    (preCreate s k).maxConnections = s.maxConnections := by
  intro k
  induction k with
  | zero => intro s h1 h2; simp [preCreate, h2]
  | succ k ih =>
    intro s h1 h2
    have hlt : s.created < s.maxConnections := by omega
    have h3 : (createConnection s).created = s.created + 1 := by
      simp [createConnection, hlt]
    have h4 : (createConnection s).queue.length = s.created + 1 := by
      simp [createConnection, hlt, h2]
    have h5 : (createConnection s).maxConnections = s.maxConnections := by
      simp [createConnection, hlt]
    obtain ⟨c1, c2, c3⟩ := ih (createConnection s) (by rw [h3, h5]; omega)
      (by rw [h4, h3])
    rw [h3] at c1 c2
    rw [h5] at c3
    refine ⟨?_, ?_, ?_⟩
    · simp only [preCreate]; omega
    · simp only [preCreate]; omega
    · simp only [preCreate]; exact c3

/-- For a pool of positive capacity, one operation preserves the capacity
bound and the capacity itself. -/
theorem applyPoolOp_le (s : PoolState) (o : PoolOp)
    (h : s.queue.length ≤ s.maxConnections) (hpos : 0 < s.maxConnections) :
    (applyPoolOp s o).queue.length ≤ (applyPoolOp s o).maxConnections ∧
    (applyPoolOp s o).maxConnections = s.maxConnections := by
  cases o with
  | get =>
    cases hq : s.queue with
    | nil => simp [applyPoolOp, getConnection, hq]
    | cons c rest =>
      simp [applyPoolOp, getConnection, hq]
      have : s.queue.length = rest.length + 1 := by simp [hq]
      omega
  | ret c =>
    by_cases hfull : 0 < s.maxConnections ∧ s.maxConnections ≤ s.queue.length
    · simp [applyPoolOp, returnConnection, hfull]
      omega
    · simp [applyPoolOp, returnConnection, hfull]
      omega

/-- For a pool of positive capacity, any operation sequence keeps the queue
within capacity. -/
theorem runPoolOps_le : ∀ (ops : List PoolOp) (s : PoolState),
    s.queue.length ≤ s.maxConnections → 0 < s.maxConnections →
    (runPoolOps s ops).queue.length ≤ s.maxConnections := by
  intro ops
  induction ops with
  | nil => intro s h _; simpa [runPoolOps] using h
  | cons o rest ih =>
    intro s h hpos
    have h1 := applyPoolOp_le s o h hpos
    have := ih (applyPoolOp s o) h1.1 (h1.2.symm ▸ hpos)
    simpa [runPoolOps, List.foldl_cons, h1.2] using this

/-- C9, counterexample to the claim as stated: a pool constructed with
capacity 0 (reachable through `QueryExecutor(conn, max_workers=0)`) is
backed by `queue.Queue(maxsize=0)`, which Python treats as an *unbounded*
queue, so its non-blocking `put` never raises `Full`: a single
`return_connection` enqueues the connection and the pool then holds
1 > 0 connections. -/
theorem C9_capacity_counterexample :
    (initPool 0).queue.length = 0 ∧
    (runPoolOps (initPool 0) [.ret 5]).queue = [5] ∧
    ¬(runPoolOps (initPool 0) [.ret 5]).queue.length ≤ 0 := by
  refine ⟨by decide, by decide, by decide⟩

/-- C9 as amended: for every pool constructed with *positive* capacity
`max_connections`, construction pre-creates exactly `max_connections`
connections, the pool queue never exceeds `max_connections` under any
sequence of `get_connection` / `return_connection` calls, and returning a
connection to a full pool closes that connection instead of enqueueing it;
a capacity-0 pool is backed by an unbounded queue and exceeds its capacity
on the first return. -/
theorem C9_pool_capacity_amended (n : Nat) (ops : List PoolOp) (hn : 0 < n) :
    (initPool n).created = n ∧
    (initPool n).queue.length = n ∧
    (runPoolOps (initPool n) ops).queue.length ≤ n ∧
    (∀ (s : PoolState) (c : Nat), 0 < s.maxConnections →
      s.queue.length = s.maxConnections →
      returnConnection c s =
        { s with closed := s.closed ++ [c] }) := by
  have hinit := preCreate_spec n ⟨[], 0, n, []⟩ (by simp) (by simp)
  have hmax : (initPool n).maxConnections = n := by simpa [initPool] using hinit.2.2
  have hq : (initPool n).queue.length = n := by simpa [initPool] using hinit.2.1
  refine ⟨by simpa [initPool] using hinit.1, hq, ?_, ?_⟩
  · have := runPoolOps_le ops (initPool n) (by rw [hq, hmax]) (by rw [hmax]; exact hn)
    rwa [hmax] at this
  · intro s c hpos hfull
    simp [returnConnection, hpos, hfull]

/-- Witness for C9: a capacity-2 pool run through a concrete sequence of
borrows and returns, and a return to a full pool closing the connection. -/
theorem C9_pool_capacity_amended_witness :
    (initPool 2).created = 2 ∧
    (initPool 2).queue.length = 2 ∧
    (runPoolOps (initPool 2) [.get, .ret 0, .ret 7, .ret 9]).queue.length ≤ 2 ∧
    returnConnection 5 ⟨[0, 1], 2, 2, []⟩ = ⟨[0, 1], 2, 2, [5]⟩ := by
  have h := C9_pool_capacity_amended 2 [.get, .ret 0, .ret 7, .ret 9] (by decide)
  exact ⟨h.1, h.2.1, h.2.2.1, h.2.2.2 ⟨[0, 1], 2, 2, []⟩ 5 (by decide) (by decide)⟩

instance {ε α : Type} [DecidableEq ε] [DecidableEq α] : DecidableEq (Except ε α)
  | .error a, .error b => decidable_of_iff (a = b) (by simp)
  | .ok a, .ok b => decidable_of_iff (a = b) (by simp)
  | .error _, .ok _ => isFalse (fun h => Except.noConfusion h)
  | .ok _, .error _ => isFalse (fun h => Except.noConfusion h)

/-- Substring occurrence on character lists (Python `pat in s`, for
non-empty `pat`). -/
def listContainsSub (pat : List Char) : List Char → Bool
  | [] => pat.isPrefixOf []
  | c :: rest => pat.isPrefixOf (c :: rest) || listContainsSub pat rest

/-- Python `pat in s` on strings. -/
def containsSub (s pat : String) : Bool :=
  listContainsSub pat.data s.data

/-- The Python exception class of a classified error. -/
inductive ErrKind where
  | schemaError
  | queryError
  | filterError
  | connectionError
  | validationError
  deriving DecidableEq

/-- A classified `DuckQLError`: class, `error_code`, message, `context`
dict, `suggestions` list and `correlation_id` (always populated — the base
constructor generates a fresh UUID when none is passed, exceptions.py
line 33). -/
structure DuckQLErr where
  kind : ErrKind
  errorCode : String
  message : String
  context : List (String × String)
  suggestions : List String
  correlationId : String
  deriving DecidableEq

/-- Python dict assignment `d[k] = v`: overwrite in place when the key
exists, else append. -/
def dictInsert {α : Type} (d : List (String × α)) (k : String) (v : α) :
    List (String × α) :=
  if d.any (fun p => decide (p.1 = k)) then
    d.map (fun p => if p.1 = k then (k, v) else p)
  else d ++ [(k, v)]

/-- Python dict-literal splat `.. , **ext`: insert the entries of `ext`
into `base` in order. -/
def dictUnion {α : Type} (base ext : List (String × α)) : List (String × α) :=
  ext.foldl (fun d kv => dictInsert d kv.1 kv.2) base

/-- First-match lookup in a context dict (Python `d.get(k)`). -/
def ctxFind {α : Type} : List (String × α) → String → Option α
  | [], _ => none
  | (k1, v) :: rest, k => if k1 = k then some v else ctxFind rest k

/-- Python `d.get(k, dflt)`. -/
def ctxGetD (ctx : List (String × String)) (k dflt : String) : String :=
  (ctxFind ctx k).getD dflt

/-- `enhance_duckdb_error` (exceptions.py lines 198-292): pattern-match the
raw error message/type into a typed error. The two regex extractions (column
plus optional table for "Could not find column", table name for "Catalog
Error") are supplied as parameters `extractColTab`/`extractTab`, since only
which names they produce — never the control flow — depends on them; `none`
models a failed regex search. `freshId` stands for the `uuid4` the base
constructor generates (no branch forwards a `correlation_id` argument).
Suggestion texts are abbreviated (source quoting of interpolated names is
elided); the function is total — it returns a value for every input. -/
def enhanceDuckdbError
    (extractColTab : String → Option (String × Option String))
    (extractTab : String → Option String)
    (msg pyType : String) (ctx : List (String × String)) (freshId : String) :
    DuckQLErr :=
  if containsSub msg "Could not find column" then
    let ct :=
      match extractColTab msg with
      | some (c, t) => (c, t.getD (ctxGetD ctx "table" "unknown"))
      | none => ("unknown", ctxGetD ctx "table" "unknown")
    { kind := .schemaError, errorCode := "SCHEMA_ERROR",
      message := "Column " ++ ct.1 ++ " not found",
      context := dictInsert (dictInsert [] "table" ct.2) "column" ct.1,
      suggestions :=
        ["Check if the column name is spelled correctly",
         "Use duckql tables " ++ ctxGetD ctx "database" "your.db" ++
           " to see available columns",
         "Ensure the column exists in table " ++ ct.2],
      correlationId := freshId }
  else if containsSub msg "Cannot compare values of type" ||
      containsSub msg "Type mismatch" then
    { kind := .filterError, errorCode := "QUERY_ERROR",
      message := "Type mismatch in filter condition",
      context := [("original_error", msg)],
      suggestions :=
        ["Ensure you are comparing compatible types",
         "Use proper quotes for string values",
         "Check if numeric fields are being compared with string values"],
      correlationId := freshId }
  else if containsSub msg "Parser Error" || containsSub msg "Syntax error" then
    { kind := .queryError, errorCode := "QUERY_ERROR",
      message := "SQL syntax error in generated query",
      context := dictUnion [("original_error", msg)] ctx,
      suggestions :=
        ["This might be a bug in DuckQL SQL generation",
         "Try simplifying your GraphQL query",
         "Report this issue with your GraphQL query and schema"],
      correlationId := freshId }
  else if pyType = "ConnectionException" ∨ pyType = "IOException" then
    { kind := .connectionError, errorCode := "CONNECTION_ERROR",
      message := "Database connection failed",
      context := dictUnion [("original_error", msg)] ctx,
      suggestions :=
        ["Check if the database file exists and is accessible",
         "Verify you have the necessary permissions",
         "Ensure the database is not locked by another process"],
      correlationId := freshId }
  else if containsSub msg "Catalog Error" then
    let t := (extractTab msg).getD "unknown"
    { kind := .schemaError, errorCode := "SCHEMA_ERROR",
      message := "Table " ++ t ++ " not found",
      context := dictInsert [] "table" t,
      suggestions :=
        ["Check if the table name is spelled correctly",
         "Use duckql tables " ++ ctxGetD ctx "database" "your.db" ++
           " to see available tables",
         "Ensure the table has been created in the database"],
      correlationId := freshId }
  else
    { kind := .queryError, errorCode := "QUERY_ERROR",
      message := "Database error: " ++ msg,
      context := dictUnion [("error_type", pyType)] ctx,
      suggestions := [],
      correlationId := freshId }

/-- Lookup after an in-place update under a different key is unchanged. -/
theorem ctxFind_map_update_ne {α : Type} (d : List (String × α)) (kI : String)
    (v : α) (k : String) (h : kI ≠ k) :
    ctxFind (d.map (fun p => if p.1 = kI then (kI, v) else p)) k = ctxFind d k := by
  induction d with
  | nil => simp [ctxFind]
  | cons p rest ih =>
    obtain ⟨k1, w⟩ := p
    by_cases hk : k1 = kI
    · subst hk
      rw [List.map_cons, if_pos (show (k1, w).1 = k1 from rfl)]
      simp only [ctxFind]
      rw [if_neg h, if_neg h]
      exact ih
    · rw [List.map_cons, if_neg (show ¬(k1, w).1 = kI from hk)]
      simp only [ctxFind]
      by_cases hk1 : k1 = k
      · rw [if_pos hk1, if_pos hk1]
      · rw [if_neg hk1, if_neg hk1]
        exact ih

/-- Lookup after appending a binding for a different key is unchanged. -/
theorem ctxFind_append_single_ne {α : Type} (d : List (String × α)) (kI : String)
    (v : α) (k : String) (h : kI ≠ k) :
    ctxFind (d ++ [(kI, v)]) k = ctxFind d k := by
  induction d with
  | nil => simp [ctxFind, h]
  | cons p rest ih =>
    obtain ⟨k1, w⟩ := p
    by_cases hk1 : k1 = k <;> simp [ctxFind, hk1, ih]

/-- Lookup after a `dictInsert` under a different key is unchanged. -/
theorem ctxFind_dictInsert_ne {α : Type} (d : List (String × α)) (kI : String)
    (v : α) (k : String) (h : kI ≠ k) :
    ctxFind (dictInsert d kI v) k = ctxFind d k := by
  unfold dictInsert
  split
  · exact ctxFind_map_update_ne d kI v k h
  · exact ctxFind_append_single_ne d kI v k h

/-- Lookup after merging entries whose keys all differ from `k` is
unchanged. -/
theorem ctxFind_dictUnion_ne {α : Type} :
    ∀ (ext base : List (String × α)) (k : String),
    (∀ kv ∈ ext, kv.1 ≠ k) →
    ctxFind (dictUnion base ext) k = ctxFind base k := by
  intro ext
  induction ext with
  | nil => intro base k _; rfl
  | cons kv rest ih =>
    intro base k h
    have h1 : kv.1 ≠ k := h kv (by simp)
    have h2 : ∀ p ∈ rest, p.1 ≠ k := fun p hp => h p (by simp [hp])
    simp only [dictUnion, List.foldl_cons]
    rw [show rest.foldl (fun d p => dictInsert d p.1 p.2) (dictInsert base kv.1 kv.2)
        = dictUnion (dictInsert base kv.1 kv.2) rest from rfl]
    rw [ih (dictInsert base kv.1 kv.2) k h2, ctxFind_dictInsert_ne base kv.1 kv.2 k h1]

/-- C7 as amended: the classifier is total, maps column-not-found to
SchemaError, type-mismatch to FilterError, syntax errors to QueryError,
ConnectionException/IOException to ConnectionError, catalog errors to
SchemaError and everything else to a generic QueryError, and every result
carries the generated correlation id; but the original error text is kept
in the context only by the type-mismatch, syntax and connection branches
(when the caller context does not itself use the `original_error` key) —
the column-not-found and table-not-found branches record only the extracted
table and column names, and the generic fallback embeds the text in its
message instead. -/
theorem C7_classifier_amended
    (exCT : String → Option (String × Option String))
    (exT : String → Option String) (msg pyType : String)
    (ctx : List (String × String)) (freshId : String) :
    (enhanceDuckdbError exCT exT msg pyType ctx freshId).correlationId = freshId ∧
    (containsSub msg "Could not find column" = true →
      (enhanceDuckdbError exCT exT msg pyType ctx freshId).kind = .schemaError ∧
      (enhanceDuckdbError exCT exT msg pyType ctx freshId).errorCode = "SCHEMA_ERROR") ∧
    (containsSub msg "Could not find column" = false →
      (containsSub msg "Cannot compare values of type" ||
        containsSub msg "Type mismatch") = true →
      (enhanceDuckdbError exCT exT msg pyType ctx freshId).kind = .filterError ∧
      ctxFind (enhanceDuckdbError exCT exT msg pyType ctx freshId).context
        "original_error" = some msg) ∧
    (containsSub msg "Could not find column" = false →
      (containsSub msg "Cannot compare values of type" ||
        containsSub msg "Type mismatch") = false →
      (containsSub msg "Parser Error" || containsSub msg "Syntax error") = true →
      (enhanceDuckdbError exCT exT msg pyType ctx freshId).kind = .queryError ∧
      ((∀ kv ∈ ctx, kv.1 ≠ "original_error") →
        ctxFind (enhanceDuckdbError exCT exT msg pyType ctx freshId).context
          "original_error" = some msg)) ∧
    (containsSub msg "Could not find column" = false →
      (containsSub msg "Cannot compare values of type" ||
        containsSub msg "Type mismatch") = false →
      (containsSub msg "Parser Error" || containsSub msg "Syntax error") = false →
      (pyType = "ConnectionException" ∨ pyType = "IOException") →
      (enhanceDuckdbError exCT exT msg pyType ctx freshId).kind = .connectionError ∧
      ((∀ kv ∈ ctx, kv.1 ≠ "original_error") →
        ctxFind (enhanceDuckdbError exCT exT msg pyType ctx freshId).context
          "original_error" = some msg)) ∧
    (containsSub msg "Could not find column" = false →
      (containsSub msg "Cannot compare values of type" ||
        containsSub msg "Type mismatch") = false →
      (containsSub msg "Parser Error" || containsSub msg "Syntax error") = false →
      ¬(pyType = "ConnectionException" ∨ pyType = "IOException") →
      containsSub msg "Catalog Error" = true →
      (enhanceDuckdbError exCT exT msg pyType ctx freshId).kind = .schemaError) ∧
    (containsSub msg "Could not find column" = false →
      (containsSub msg "Cannot compare values of type" ||
        containsSub msg "Type mismatch") = false →
      (containsSub msg "Parser Error" || containsSub msg "Syntax error") = false →
      ¬(pyType = "ConnectionException" ∨ pyType = "IOException") →
      containsSub msg "Catalog Error" = false →
      (enhanceDuckdbError exCT exT msg pyType ctx freshId).kind = .queryError ∧
      (enhanceDuckdbError exCT exT msg pyType ctx freshId).message =
        "Database error: " ++ msg) := by
  refine ⟨?_, ?_, ?_, ?_, ?_, ?_, ?_⟩
  · unfold enhanceDuckdbError
    repeat' split
    all_goals rfl
  · intro h1
    unfold enhanceDuckdbError
    rw [if_pos h1]
    exact ⟨rfl, rfl⟩
  · intro h1 h2
    unfold enhanceDuckdbError
    rw [if_neg (by simp [h1]), if_pos h2]
    exact ⟨rfl, by simp [ctxFind]⟩
  · intro h1 h2 h3
    unfold enhanceDuckdbError
    rw [if_neg (by simp [h1]), if_neg (by simp [h2]), if_pos h3]
    refine ⟨rfl, fun hctx => ?_⟩
    rw [show (dictUnion [("original_error", msg)] ctx) =
        dictUnion [("original_error", msg)] ctx from rfl]
    rw [ctxFind_dictUnion_ne ctx [("original_error", msg)] "original_error" hctx]
    simp [ctxFind]
  · intro h1 h2 h3 h4
    unfold enhanceDuckdbError
    rw [if_neg (by simp [h1]), if_neg (by simp [h2]), if_neg (by simp [h3]), if_pos h4]
    refine ⟨rfl, fun hctx => ?_⟩
    rw [ctxFind_dictUnion_ne ctx [("original_error", msg)] "original_error" hctx]
    simp [ctxFind]
  · intro h1 h2 h3 h4 h5
    unfold enhanceDuckdbError
    rw [if_neg (by simp [h1]), if_neg (by simp [h2]), if_neg (by simp [h3]),
      if_neg h4, if_pos h5]
  · intro h1 h2 h3 h4 h5
    unfold enhanceDuckdbError
    rw [if_neg (by simp [h1]), if_neg (by simp [h2]), if_neg (by simp [h3]),
      if_neg h4, if_neg (by simp [h5])]
    exact ⟨rfl, rfl⟩

/-- Witness for C7: the classifier applied to concrete raw errors of each
relevant shape. -/
theorem C7_classifier_amended_witness :
    (enhanceDuckdbError (fun _ => some ("username", some "users")) (fun _ => none)
        "Could not find column username in table users" "Exception" [] "cid-1").kind =
      .schemaError ∧
    (enhanceDuckdbError (fun _ => none) (fun _ => none)
        "Type mismatch between INTEGER and VARCHAR" "Exception" [] "cid-2").kind =
      .filterError ∧
    (enhanceDuckdbError (fun _ => none) (fun _ => none)
        "Parser Error: syntax error at end of input" "Exception" [] "cid-3").kind =
      .queryError ∧
    (enhanceDuckdbError (fun _ => none) (fun _ => none)
        "socket closed" "IOException" [] "cid-4").kind = .connectionError ∧
    (enhanceDuckdbError (fun _ => none) (fun _ => none)
        "wat" "RuntimeError" [] "cid-5").message = "Database error: wat" := by
  refine ⟨(C7_classifier_amended (fun _ => some ("username", some "users"))
      (fun _ => none) "Could not find column username in table users" "Exception"
      [] "cid-1").2.1 (by decide) |>.1, ?_, ?_, ?_, ?_⟩
  · exact ((C7_classifier_amended (fun _ => none) (fun _ => none)
      "Type mismatch between INTEGER and VARCHAR" "Exception" [] "cid-2").2.2.1
      (by decide) (by decide)).1
  · exact ((C7_classifier_amended (fun _ => none) (fun _ => none)
      "Parser Error: syntax error at end of input" "Exception" [] "cid-3").2.2.2.1
      (by decide) (by decide) (by decide)).1
  · exact ((C7_classifier_amended (fun _ => none) (fun _ => none)
      "socket closed" "IOException" [] "cid-4").2.2.2.2.1
      (by decide) (by decide) (by decide) (Or.inr rfl)).1
  · exact ((C7_classifier_amended (fun _ => none) (fun _ => none)
      "wat" "RuntimeError" [] "cid-5").2.2.2.2.2.2
      (by decide) (by decide) (by decide) (by simp) (by decide)).2

/-- C7, counterexample to the claim as stated: for a column-not-found error
the classifier's context holds only the parsed table and column names — no
context entry preserves the original error text. -/
theorem C7_context_counterexample :
    (enhanceDuckdbError (fun _ => some ("username", some "users")) (fun _ => none)
        "Could not find column username in table users" "Exception" [] "cid").context =
      [("table", "users"), ("column", "username")] ∧
    ((enhanceDuckdbError (fun _ => some ("username", some "users")) (fun _ => none)
        "Could not find column username in table users" "Exception" [] "cid").context.map
        Prod.snd).contains "Could not find column username in table users" = false ∧
    (enhanceDuckdbError (fun _ => some ("username", some "users")) (fun _ => none)
        "Could not find column username in table users" "Exception" [] "cid").kind =
      .schemaError := by
  refine ⟨by decide, by decide, by decide⟩

/-- C4 as amended: once the bounded wait elapses on an exhausted pool,
`get_connection` raises `RuntimeError("Unable to get database connection
from pool")` instead of blocking for ever, and the executor's classifier
wraps that error as a generic `QueryError` (code `QUERY_ERROR`), not as
`ConnectionError`. -/
theorem C4_pool_exhaustion_amended (s : PoolState)
    (ectx : List (String × String)) (freshId : String)
    (exCT : String → Option (String × Option String))
    (exT : String → Option String) (h : s.queue = []) :
    getConnection s =
      .error ⟨"RuntimeError", "Unable to get database connection from pool"⟩ ∧
    (enhanceDuckdbError exCT exT "Unable to get database connection from pool"
      "RuntimeError" ectx freshId).kind = .queryError ∧
    (enhanceDuckdbError exCT exT "Unable to get database connection from pool"
      "RuntimeError" ectx freshId).errorCode = "QUERY_ERROR" ∧
    (enhanceDuckdbError exCT exT "Unable to get database connection from pool"
      "RuntimeError" ectx freshId).kind ≠ .connectionError := by
  refine ⟨by simp [getConnection, h], rfl, rfl, by intro hk; cases hk⟩

/-- Witness for C4: a capacity-1 pool with its only connection borrowed. -/
theorem C4_pool_exhaustion_amended_witness :
    getConnection (runPoolOps (initPool 1) [.get]) =
      .error ⟨"RuntimeError", "Unable to get database connection from pool"⟩ ∧
    (enhanceDuckdbError (fun _ => none) (fun _ => none)
      "Unable to get database connection from pool"
      "RuntimeError" [] "cid").kind = .queryError ∧
    (enhanceDuckdbError (fun _ => none) (fun _ => none)
      "Unable to get database connection from pool"
      "RuntimeError" [] "cid").errorCode = "QUERY_ERROR" ∧
    (enhanceDuckdbError (fun _ => none) (fun _ => none)
      "Unable to get database connection from pool"
      "RuntimeError" [] "cid").kind ≠ .connectionError :=
  C4_pool_exhaustion_amended (runPoolOps (initPool 1) [.get]) [] "cid"
    (fun _ => none) (fun _ => none) (by decide)

/-- C4, counterexample to the claim as stated: pool exhaustion surfaces as
`RuntimeError` and is classified as a generic `QueryError`, not as
`ConnectionError`. -/
theorem C4_exhaustion_counterexample :
    getConnection (runPoolOps (initPool 1) [.get]) =
      .error ⟨"RuntimeError", "Unable to get database connection from pool"⟩ ∧
    (enhanceDuckdbError (fun _ => none) (fun _ => none)
        "Unable to get database connection from pool" "RuntimeError" [] "cid-x").kind ≠
      .connectionError ∧
    (enhanceDuckdbError (fun _ => none) (fun _ => none)
        "Unable to get database connection from pool" "RuntimeError" [] "cid-x").errorCode ≠
      "CONNECTION_ERROR" := by
  refine ⟨by decide, by decide, by decide⟩

/-- The default aggregate expressions of `aggregate_resolver`
(aggregates.py lines 176-189): when the caller requests no functions,
`SUM`, `AVG`, `MIN` and `MAX` of every numeric column, each aliased
`<column>_<function>`. -/
def defaultAggFunctions (numericCols : List String) : List String :=
  numericCols.flatMap (fun f =>
    ["SUM(" ++ f ++ ") as " ++ f ++ "_sum",
     "AVG(" ++ f ++ ") as " ++ f ++ "_avg",
     "MIN(" ++ f ++ ") as " ++ f ++ "_min",
     "MAX(" ++ f ++ ") as " ++ f ++ "_max"])

/-- The SELECT column list built by `aggregate_resolver` (aggregates.py
lines 165-198): the group-by columns verbatim, then the mandatory
`COUNT(*) as _count`, then the aggregate expressions (defaulted to
`defaultAggFunctions` over the numeric columns when none are requested;
`numericCols` is the caller-supplied numeric classification of the table's
columns). -/
def aggSelections (numericCols groupBy functions : List String) : List String :=
  let fns := if functions.isEmpty then defaultAggFunctions numericCols else functions
  groupBy ++ ["COUNT(*) as _count"] ++ fns

/-- C6: the compiled aggregate SELECT's columns are exactly (as a multiset;
the code emits `COUNT(*)` before the aggregate expressions) the group-by
columns verbatim, plus the aggregate expressions, plus the mandatory
`COUNT(*)` aliased `_count`; when no functions are requested the aggregate
expressions are `SUM`, `AVG`, `MIN`, `MAX` of every numeric column, aliased
`<column>_<function>`. -/
theorem C6_agg_selections (nc gb fns : List String) :
    List.Perm (aggSelections nc gb fns)
      (gb ++ (if fns.isEmpty then defaultAggFunctions nc else fns) ++
        ["COUNT(*) as _count"]) ∧
    "COUNT(*) as _count" ∈ aggSelections nc gb fns ∧
    defaultAggFunctions nc = nc.flatMap (fun f =>
      ["SUM(" ++ f ++ ") as " ++ f ++ "_sum",
       "AVG(" ++ f ++ ") as " ++ f ++ "_avg",
       "MIN(" ++ f ++ ") as " ++ f ++ "_min",
       "MAX(" ++ f ++ ") as " ++ f ++ "_max"]) := by
  refine ⟨?_, by simp [aggSelections], rfl⟩
  simp only [aggSelections]
  simpa [List.append_assoc] using
    List.Perm.append_left gb
      (@List.perm_append_comm String ["COUNT(*) as _count"]
        (if fns.isEmpty then defaultAggFunctions nc else fns))

/-- A raw cell value as fetched from the engine, as far as the
normalization in `_execute_sync` (executor.py lines 514-527) distinguishes
them: a `memoryview` (carrying its decoded text), a value with an
`isoformat` method (carrying the ISO string it produces), or any other
value, passed through unchanged. -/
inductive RawValue where
  | mem (decoded : String)
  | temporal (iso : String)
  | plain (v : JValue)
  deriving DecidableEq

/-- The per-cell conversion of `_execute_sync`: memoryview values are
decoded to text, values with `isoformat` become their ISO string, all
others pass through. -/
def normalizeValue : RawValue → JValue
  | .mem decoded => .jstr decoded
  | .temporal iso => .jstr iso
  | .plain v => v

/-- One result row turned into a dict: `for i, col in enumerate(columns):
row_dict[col] = <normalized row[i]>` (executor.py lines 516-527). -/
def rowToDict (columns : List String) (row : List RawValue) :
    List (String × JValue) :=
  columns.enum.foldl
    (fun d ic => dictInsert d ic.2 (normalizeValue (row.getD ic.1 (.plain .jnull))))
    []

/-- The `QueryResult` dataclass (executor.py lines 26-31). -/
structure QueryResult where
  rows : List (List (String × JValue))
  columns : List String
  rowCount : Nat
  deriving DecidableEq

/-- The result assembly of `_execute_sync` (executor.py lines 514-533):
convert every fetched row to a dict and set `row_count` to the number of
converted rows. -/
def executeSyncResult (columns : List String) (rawRows : List (List RawValue)) :
    QueryResult :=
  let rowDicts := rawRows.map (rowToDict columns)
  ⟨rowDicts, columns, rowDicts.length⟩

/-- Folding `dictInsert` over keys that are fresh (pairwise distinct and
absent from the accumulator) appends the bindings in order. -/
theorem foldl_dictInsert_fresh {α : Type} (f : Nat → α) :
    ∀ (ps : List (Nat × String)) (acc : List (String × α)),
    (ps.map Prod.snd).Nodup →
    (∀ c ∈ ps.map Prod.snd, ∀ p ∈ acc, p.1 ≠ c) →
    ps.foldl (fun d ic => dictInsert d ic.2 (f ic.1)) acc =
      acc ++ ps.map (fun ic => (ic.2, f ic.1)) := by
  intro ps
  induction ps with
  | nil => intro acc _ _; simp
  | cons ic rest ih =>
    intro acc hnd hfresh
    obtain ⟨i, c⟩ := ic
    have hnotin : ∀ p ∈ acc, p.1 ≠ c := fun p hp => hfresh c (by simp) p hp
    have hins : dictInsert acc c (f i) = acc ++ [(c, f i)] := by
      unfold dictInsert
      rw [if_neg (by
        simp only [List.any_eq_true, decide_eq_true_eq]
        rintro ⟨p, hp, hpc⟩
        exact hnotin p hp hpc)]
    simp only [List.map_cons, List.nodup_cons] at hnd
    rw [List.foldl_cons]
    show List.foldl (fun d ic => dictInsert d ic.2 (f ic.1))
      (dictInsert acc c (f i)) rest = _
    rw [hins, ih (acc ++ [(c, f i)]) hnd.2 ?_]
    · simp
    · intro c2 hc2 p hp
      rcases List.mem_append.1 hp with hp | hp
      · exact hfresh c2 (by simp [hc2]) p hp
      · have hpc : p = (c, f i) := by simpa using hp
        subst hpc
        intro hcc
        have : c = c2 := hcc
        exact hnd.1 (this ▸ hc2)

/-- With duplicate-free column names, a converted row dict is exactly the
column list paired with the normalized cell values in order. -/
theorem rowToDict_eq (columns : List String) (h : columns.Nodup)
    (row : List RawValue) :
    rowToDict columns row = columns.enum.map
      (fun ic => (ic.2, normalizeValue (row.getD ic.1 (.plain .jnull)))) := by
  have := foldl_dictInsert_fresh
    (fun i => normalizeValue (row.getD i (.plain .jnull))) columns.enum []
    (by rw [List.enum_map_snd]; exact h)
    (by intro c _ p hp; simp at hp)
  simpa [rowToDict] using this

/-- C10: every `QueryResult` built by `_execute_sync` has `row_count` equal
to the length of its rows list (and to the number of fetched raw rows), its
column list passed through, and — for duplicate-free column names — every
row dict's key list equal to the column list, with each value the
normalization (memoryview decoded to text, `isoformat` values to ISO
strings) of the raw cell at that column's index. -/
theorem C10_query_result (columns : List String)
    (rawRows : List (List RawValue)) (h : columns.Nodup) :
    (executeSyncResult columns rawRows).rowCount =
      (executeSyncResult columns rawRows).rows.length ∧
    (executeSyncResult columns rawRows).rowCount = rawRows.length ∧
    (executeSyncResult columns rawRows).columns = columns ∧
    (∀ d ∈ (executeSyncResult columns rawRows).rows, d.map Prod.fst = columns) ∧
    (∀ r ∈ rawRows, rowToDict columns r = columns.enum.map
      (fun ic => (ic.2, normalizeValue (r.getD ic.1 (.plain .jnull))))) := by
  refine ⟨rfl, by simp [executeSyncResult], rfl, ?_, ?_⟩
  · intro d hd
    simp only [executeSyncResult, List.mem_map] at hd
    obtain ⟨r, _, rfl⟩ := hd
    rw [rowToDict_eq columns h r, List.map_map]
    have hcomp : (Prod.fst ∘ fun ic : Nat × String =>
        (ic.2, normalizeValue (r.getD ic.1 (.plain .jnull)))) = Prod.snd := by
      funext ic; rfl
    rw [hcomp, List.enum_map_snd]
  · intro r _
    exact rowToDict_eq columns h r

/-- Witness for C10 at a concrete result set containing a memoryview and a
temporal value. -/
theorem C10_query_result_witness :
    (executeSyncResult ["a", "b"]
      [[.mem "bin", .temporal "2024-01-01T00:00:00"], [.plain (.jint 1)]]).rowCount = 2 ∧
    (∀ d ∈ (executeSyncResult ["a", "b"]
      [[.mem "bin", .temporal "2024-01-01T00:00:00"], [.plain (.jint 1)]]).rows,
      d.map Prod.fst = ["a", "b"]) :=
  ⟨(C10_query_result ["a", "b"]
      [[.mem "bin", .temporal "2024-01-01T00:00:00"], [.plain (.jint 1)]]
      (by decide)).2.1,
    (C10_query_result ["a", "b"]
      [[.mem "bin", .temporal "2024-01-01T00:00:00"], [.plain (.jint 1)]]
      (by decide)).2.2.2.1⟩

end DuckQL
